import Mathlib

/-!
Verification development for the brahmandAI dashboard's conversational core:
the command router and multi-model fallback chains of
`src/app/api/chat/route.ts`, the model selection and fallback chain of
`src/app/api/translate/route.ts`, and the built-in response matcher of
`src/components/features/VoiceAssistant.tsx`.

JavaScript strings are modelled as Lean `String` / `List Char` (the code only
manipulates them through concatenation, slicing, `split`, `trim`,
`toLowerCase`, `includes` and regular-expression matching, all of which are
reproduced here over code points; the inputs involved are ASCII).  The
JavaScript regular expressions of `COMMAND_PATTERNS` are embedded as data in a
small backtracking engine (`Re` / `matchRe`) implementing the ECMAScript
leftmost-match, left-alternative-first, greedy/lazy-quantifier semantics that
`RegExp.prototype.test` / `String.prototype.match` use.  Network calls are
modelled by oracles: an attempt either fails (timeout, thrown error,
non-success HTTP status — all of which the route code treats identically) or
yields the parsed response body.  `Math.random()`-based uniform choices are
modelled by an explicit index into the fixed pool being drawn from.
-/

/-! ## JavaScript string primitives -/

/-- The set of characters removed by JavaScript `String.prototype.trim`
(ECMAScript WhiteSpace plus LineTerminator). -/
def jsWhitespace (c : Char) : Bool :=
  [0x9, 0xA, 0xB, 0xC, 0xD, 0x20, 0xA0, 0x1680, 0x2000, 0x2001, 0x2002,
   0x2003, 0x2004, 0x2005, 0x2006, 0x2007, 0x2008, 0x2009, 0x200A, 0x2028,
   0x2029, 0x202F, 0x205F, 0x3000, 0xFEFF].contains c.toNat

/-- JavaScript `String.prototype.trim`. -/
def jsTrimStr (s : String) : String :=
  String.mk (((s.toList.dropWhile jsWhitespace).reverse.dropWhile jsWhitespace).reverse)

/-- JavaScript `String.prototype.toLowerCase` (ASCII range, which is all the
source's tables and patterns use). -/
def lowerStr (s : String) : String :=
  String.mk (s.toList.map Char.toLower)

/-- JavaScript `String.prototype.includes` on code-point lists. -/
def containsList (l sub : List Char) : Bool :=
  l.tails.any (fun t => sub.isPrefixOf t)

/-- JavaScript `String.prototype.includes`. -/
def strIncludes (s pat : String) : Bool :=
  containsList s.toList pat.toList

/-- Index of the first occurrence of `sub` in `l` (the position JavaScript
`String.prototype.indexOf` reports), `none` when absent. -/
def idxOfSub (sub : List Char) : List Char → Option Nat
  | [] => if sub.isPrefixOf ([] : List Char) then some 0 else none
  | c :: rest =>
    if sub.isPrefixOf (c :: rest) then some 0
    else (idxOfSub sub rest).map (· + 1)

/-- JavaScript `String.prototype.split` with a non-empty plain-string
separator: cut at each non-overlapping occurrence, scanning left to right.
Written with structural recursion on a fuel argument (the input length
bounds the recursion depth) so that it evaluates inside the kernel; the
`sep ≠ []` guard only rules out the empty separator, which the source never
uses. -/
def jsSplitFuel (sep : List Char) : Nat → List Char → List (List Char)
  | _, [] => [[]]
  | 0, _ :: _ => [[]]
  | fuel + 1, c :: rest =>
    if sep ≠ [] ∧ sep.isPrefixOf (c :: rest) then
      [] :: jsSplitFuel sep fuel ((c :: rest).drop sep.length)
    else
      match jsSplitFuel sep fuel rest with
      | [] => [[c]]
      | h2 :: t2 => (c :: h2) :: t2

/-- JavaScript `String.prototype.split` (see `jsSplitFuel`). -/
def jsSplit (sep l : List Char) : List (List Char) :=
  jsSplitFuel sep l.length l

/-- JavaScript `String.prototype.split` on `String`. -/
def jsSplitStr (s sep : String) : List String :=
  (jsSplit sep.toList s.toList).map String.mk

/-- First-value lookup in an ordered key/value table — JavaScript plain-object
property access, with the object written as one literal (insertion order). -/
def lookupStr (tbl : List (String × String)) (k : String) : Option String :=
  (tbl.find? (fun p => p.1 == k)).map (·.2)

/-- JavaScript truthiness of a possibly-undefined string (`undefined` and the
empty string are falsy). -/
def jsTruthy : Option String → Bool
  | none => false
  | some s => s != ""

/-- JavaScript `String.prototype.startsWith`. -/
def startsWithStr (s pat : String) : Bool :=
  pat.toList.isPrefixOf s.toList

/-! ## ECMAScript regular-expression engine

All patterns in `COMMAND_PATTERNS` carry the `i` flag, use `(?:...|...)`
alternation, `(?:...)?` optional groups, and quantify only single-character
classes (`[a-zA-Z ]+`, `[A-Z]{1,5}`, `.+?`, …), so the embedded syntax `Re`
provides literals (matched case-insensitively), binary alternation/sequencing,
capture groups, and quantified character classes.  `matchRe` returns every
match of `r` against a prefix of the input, in ECMAScript backtracking
priority order (left alternative first, greedy quantifiers longest-first,
lazy quantifiers shortest-first); `searchFrom` scans start positions left to
right exactly as `RegExp.prototype.test` / `String.prototype.match` do. -/

/-- The character classes appearing in `COMMAND_PATTERNS`. -/
inductive CClass where
  /-- `[a-zA-Z]` -/
  | alpha
  /-- `[a-zA-Z ]` -/
  | alphaSpace
  /-- `[A-Z]` under the `i` flag, hence any ASCII letter -/
  | upperIns
  /-- `.` (any character except line terminators) -/
  | anyDot
  /-- `["']` -/
  | quote
  deriving Repr, DecidableEq

def isAsciiLetter (c : Char) : Bool :=
  ('a' ≤ c.toLower && c.toLower ≤ 'z')

def classMatch : CClass → Char → Bool
  | .alpha, c => isAsciiLetter c
  | .alphaSpace, c => isAsciiLetter c || c == ' '
  | .upperIns, c => isAsciiLetter c
  | .anyDot, c =>
    !(c == '\n' || c == '\r' || c.toNat == 0x2028 || c.toNat == 0x2029)
  | .quote, c => c == '"' || c == '\''

/-- Embedded regular-expression syntax. -/
inductive Re where
  /-- a literal run of pattern characters (matched case-insensitively) -/
  | lit : List Char → Re
  /-- a single character from a class -/
  | cls : CClass → Re
  /-- `(?:r1|r2)`, left alternative preferred -/
  | alt : Re → Re → Re
  /-- `r1r2` -/
  | seq : Re → Re → Re
  /-- a numbered capture group `( r )` -/
  | grp : Nat → Re → Re
  /-- a quantified class `c{lo,hi}` (`hi = none` for unbounded); the final
  flag is `true` for lazy (`?`-suffixed) quantifiers -/
  | rep : CClass → Nat → Option Nat → Bool → Re
  deriving Repr

/-- Case-insensitive "pattern literal is a prefix of the input". -/
def lcStarts : List Char → List Char → Bool
  | [], _ => true
  | _ :: _, [] => false
  | p :: ps, c :: cs => (p.toLower == c.toLower) && lcStarts ps cs

/-- Suffixes of the input left after consuming `0, 1, 2, …` characters of the
class `cc` (in that order), capped by the optional bound `hi` and by the run
of class characters actually present. -/
def repTails (cc : CClass) : Option Nat → List Char → List (List Char)
  | _, [] => [[]]
  | hi, c :: cs =>
    (c :: cs) ::
      (if classMatch cc c && hi != some 0 then
        repTails cc (hi.map (fun n => n - 1)) cs
      else [])

/-- Recorded capture-group values: group index paired with the consumed
characters. -/
abbrev Caps := List (Nat × List Char)

/-- Sequencing of prioritized outcome lists. -/
def bindOuts (outs : List (List Char × Caps))
    (f : List Char → Caps → List (List Char × Caps)) : List (List Char × Caps) :=
  match outs with
  | [] => []
  | o :: rest => f o.1 o.2 ++ bindOuts rest f

/-- All ways `r` matches a prefix of `inp`, each yielding the remaining
suffix and the captures accumulated on top of `caps`, in ECMAScript
backtracking priority order. -/
def matchRe : Re → List Char → Caps → List (List Char × Caps)
  | .lit p, inp, caps =>
    if lcStarts p inp then [(inp.drop p.length, caps)] else []
  | .cls cc, inp, caps =>
    match inp with
    | [] => []
    | c :: cs => if classMatch cc c then [(cs, caps)] else []
  | .alt r1 r2, inp, caps => matchRe r1 inp caps ++ matchRe r2 inp caps
  | .seq r1 r2, inp, caps =>
    bindOuts (matchRe r1 inp caps) (fun i2 c2 => matchRe r2 i2 c2)
  | .grp i r, inp, caps =>
    (matchRe r inp caps).map
      (fun out => (out.1, (i, inp.take (inp.length - out.1.length)) :: out.2))
  | .rep cc lo hi lz, inp, caps =>
    let cands := (repTails cc hi inp).drop lo
    (if lz then cands else cands.reverse).map (fun rest => (rest, caps))

/-- Leftmost match: try each start position from the left, and at the first
position where the pattern matches return its highest-priority outcome
(exactly what `test`/`match` without the `g` flag do). -/
def searchFrom (r : Re) : List Char → Option (List Char × Caps)
  | [] =>
    match matchRe r [] [] with
    | out :: _ => some out
    | [] => none
  | c :: rest =>
    match matchRe r (c :: rest) [] with
    | out :: _ => some out
    | [] => searchFrom r rest

/-- `RegExp.prototype.test`. -/
def reTest (r : Re) (s : String) : Bool :=
  (searchFrom r s.toList).isSome

/-- First recorded value of capture group `i`. -/
def lookupCap (caps : Caps) (i : Nat) : Option (List Char) :=
  (caps.find? (fun p => p.1 == i)).map (·.2)

/-- `match[i]` of `String.prototype.match`: the value of capture group `i` in
the leftmost match (`none` when there is no match or the group is unset). -/
def reGroup (r : Re) (i : Nat) (s : String) : Option String :=
  (searchFrom r s.toList).bind (fun out => (lookupCap out.2 i).map String.mk)

/-! ## `src/app/api/chat/route.ts` — `COMMAND_PATTERNS`

Each definition transcribes one regular-expression literal of the
`COMMAND_PATTERNS` object.  All literals carry the `i` flag, so pattern
letters are written lowercase and matched case-insensitively by the engine.
`(?:x)?` is embedded as `x | ε` (`roptRe`), which is exactly the greedy
optional. -/

/-- A pattern literal. -/
def rlit (s : String) : Re := .lit s.toList

/-- `(?:r)?` — greedy optional. -/
def roptRe (r : Re) : Re := .alt r (.lit [])

/-- `/(?:what's|what is|how's|how is) the weather(?: like)?(?: in| at)? ([a-zA-Z ]+)/i` -/
def weatherRe : Re :=
  .seq (.alt (rlit "what's") (.alt (rlit "what is") (.alt (rlit "how's") (rlit "how is"))))
    (.seq (rlit " the weather")
      (.seq (roptRe (rlit " like"))
        (.seq (roptRe (.alt (rlit " in") (rlit " at")))
          (.seq (rlit " ") (.grp 1 (.rep .alphaSpace 1 none false))))))

/-- `/(?:what's|what is|how's|how is) (?:the )?(?:stock|price)(?: (?:of|for))? ([A-Z]{1,5})/i` -/
def stockPriceRe : Re :=
  .seq (.alt (rlit "what's") (.alt (rlit "what is") (.alt (rlit "how's") (rlit "how is"))))
    (.seq (rlit " ")
      (.seq (roptRe (rlit "the "))
        (.seq (.alt (rlit "stock") (rlit "price"))
          (.seq (roptRe (.seq (rlit " ") (.alt (rlit "of") (rlit "for"))))
            (.seq (rlit " ") (.grp 1 (.rep .upperIns 1 (some 5) false)))))))

/-- `/(?:show|get|fetch|tell) (?:me )?(?:the )?news(?: about| on| for)? ?([a-zA-Z ]*)/i` -/
def newsRe : Re :=
  .seq (.alt (rlit "show") (.alt (rlit "get") (.alt (rlit "fetch") (rlit "tell"))))
    (.seq (rlit " ")
      (.seq (roptRe (rlit "me "))
        (.seq (roptRe (rlit "the "))
          (.seq (rlit "news")
            (.seq (roptRe (.alt (rlit " about") (.alt (rlit " on") (rlit " for"))))
              (.seq (roptRe (rlit " ")) (.grp 1 (.rep .alphaSpace 0 none false))))))))

/-- `/(?:translate|convert) ["'](.+?)["'] (?:to|into) ([a-zA-Z]+)/i` -/
def translateRe : Re :=
  .seq (.alt (rlit "translate") (rlit "convert"))
    (.seq (rlit " ")
      (.seq (.cls .quote)
        (.seq (.grp 1 (.rep .anyDot 1 none true))
          (.seq (.cls .quote)
            (.seq (rlit " ")
              (.seq (.alt (rlit "to") (rlit "into"))
                (.seq (rlit " ") (.grp 2 (.rep .alpha 1 none false)))))))))

/-- `/(?:add|create|make) (?:a )?(?:new )?(?:todo|task|reminder) (?:to|about|for)? (.+)/i`
(defined in `COMMAND_PATTERNS` but never consulted by `detectCommands`). -/
def addTodoRe : Re :=
  .seq (.alt (rlit "add") (.alt (rlit "create") (rlit "make")))
    (.seq (rlit " ")
      (.seq (roptRe (rlit "a "))
        (.seq (roptRe (rlit "new "))
          (.seq (.alt (rlit "todo") (.alt (rlit "task") (rlit "reminder")))
            (.seq (rlit " ")
              (.seq (roptRe (.alt (rlit "to") (.alt (rlit "about") (rlit "for"))))
                (.seq (rlit " ") (.grp 1 (.rep .anyDot 1 none false)))))))))

/-- `/(?:analyze|check) (?:sentiment|feeling|emotion) (?:for|of|about) ["'](.+?)["']/i` -/
def sentimentRe : Re :=
  .seq (.alt (rlit "analyze") (rlit "check"))
    (.seq (rlit " ")
      (.seq (.alt (rlit "sentiment") (.alt (rlit "feeling") (rlit "emotion")))
        (.seq (rlit " ")
          (.seq (.alt (rlit "for") (.alt (rlit "of") (rlit "about")))
            (.seq (rlit " ")
              (.seq (.cls .quote)
                (.seq (.grp 1 (.rep .anyDot 1 none true)) (.cls .quote))))))))

/-- `/(?:help|assist|guidance|commands|what can you do)/i` -/
def helpRe : Re :=
  .alt (rlit "help")
    (.alt (rlit "assist")
      (.alt (rlit "guidance") (.alt (rlit "commands") (rlit "what can you do"))))

/-- `/(?:what|tell me)(?: is)? the (?:current )?time/i` -/
def timeRe : Re :=
  .seq (.alt (rlit "what") (rlit "tell me"))
    (.seq (roptRe (rlit " is"))
      (.seq (rlit " the ") (.seq (roptRe (rlit "current ")) (rlit "time"))))

/-- `/(?:what|tell me)(?: is)? (?:today's|the current) date/i` -/
def dateRe : Re :=
  .seq (.alt (rlit "what") (rlit "tell me"))
    (.seq (roptRe (rlit " is"))
      (.seq (rlit " ")
        (.seq (.alt (rlit "today's") (rlit "the current")) (rlit " date"))))

/-- `/(?:tell|say)(?:me)? a joke/i` — note: no space before the optional
`me`, so the literal only matches "tell a joke" / "tellme a joke" (and the
`say` variants). -/
def jokeRe : Re :=
  .seq (.alt (rlit "tell") (rlit "say")) (.seq (roptRe (rlit "me")) (rlit " a joke"))

/-! ## `src/app/api/chat/route.ts` — `detectCommands` -/

/-- The value `detectCommands` returns: `{ command: string | null; params: string[] }`. -/
structure RouteResult where
  command : Option String
  params : List String
  deriving Repr, DecidableEq

/-- `detectCommands` (lines 75–128): test `help`, `time`, `date`, `joke`,
then match `weather`, `stock`, `news`, `translate`, `sentiment`, in that
order; the branch guards mirror the source's truthiness checks on the match
object and its capture groups. -/
def detectCommands (text : String) : RouteResult :=
  if reTest helpRe text then ⟨some "help", []⟩
  else if reTest timeRe text then ⟨some "time", []⟩
  else if reTest dateRe text then ⟨some "date", []⟩
  else if reTest jokeRe text then ⟨some "joke", []⟩
  else if jsTruthy (reGroup weatherRe 1 text) then
    ⟨some "weather", [jsTrimStr ((reGroup weatherRe 1 text).getD "")]⟩
  else if jsTruthy (reGroup stockPriceRe 1 text) then
    ⟨some "stock", [jsTrimStr ((reGroup stockPriceRe 1 text).getD "")]⟩
  else if reTest newsRe text then
    ⟨some "news",
      if jsTruthy (reGroup newsRe 1 text) then
        [jsTrimStr ((reGroup newsRe 1 text).getD "")]
      else ["general"]⟩
  else if jsTruthy (reGroup translateRe 1 text) && jsTruthy (reGroup translateRe 2 text) then
    ⟨some "translate",
      [jsTrimStr ((reGroup translateRe 1 text).getD ""),
       jsTrimStr ((reGroup translateRe 2 text).getD "")]⟩
  else if jsTruthy (reGroup sentimentRe 1 text) then
    ⟨some "sentiment", [jsTrimStr ((reGroup sentimentRe 1 text).getD "")]⟩
  else ⟨none, []⟩

/-! ## `src/app/api/chat/route.ts` — generation fallback chain (lines 152–391)

A model attempt is modelled as `Option String`: `none` when the `fetch`
throws (network error or the 5-second `AbortSignal` timeout) or the route
throws on a non-success status, `some s` when the call returns and `s` is the
`generated_text` the route extracts from the response body (the empty string
when the body has no usable `generated_text`, matching the untouched
`aiResponse = ''`).  The `Math.random()` draw from `fallbackResponses` is
modelled by the index `i`. -/

def chatPrimaryModel : String := "google/flan-t5-xl"

def chatBackupModel : String := "facebook/bart-large"

/-- `fallbackResponses` (lines 153–159). -/
def fallbackResponses : List String :=
  ["I'm still learning, but I'd be happy to help you with that if you could rephrase your question.",
   "I'm not sure I understood correctly. Could you please try asking in a different way?",
   "That's an interesting question. Let me think about it and get back to you.",
   "I'm having trouble processing that request. Could we try something else?",
   "I'd like to help with that, but I'm not sure I have the right information. Could you provide more details?"]

/-- `fallbackResponses[Math.floor(Math.random() * fallbackResponses.length)]`
with the uniform draw modelled by `i`. -/
def pickFallback (i : Fin 5) : String :=
  fallbackResponses.getD i.val ""

/-- Response clean-up (lines 335–344): if the text includes `"AI:"`, take
`split("AI:")[1].trim()`; otherwise if it includes `"Human:"`, take
`split("Human:")[0].trim()` (guarded by `parts.length > 1` as in the source);
otherwise leave it unchanged. -/
def cleanResponse (s : String) : String :=
  if containsList s.toList ("AI:".toList) then
    jsTrimStr (String.mk ((jsSplit ("AI:".toList) s.toList).getD 1 []))
  else if containsList s.toList ("Human:".toList) then
    let parts := jsSplit ("Human:".toList) s.toList
    if 1 < parts.length then jsTrimStr (String.mk (parts.getD 0 [])) else s
  else s

/-- The reply the generation path produces: the `response` string, the
`model_used` reported alongside it (`none` on the outer-catch path, which
reports an `error` field instead), which models were actually fetched, and
the HTTP status (every branch of the general-conversation path returns 200). -/
structure ChatReply where
  response : String
  modelUsed : Option String
  attempted : List String
  status : Nat
  deriving Repr, DecidableEq

/-- Lines 329–361: substitute a random fallback when the model text is empty,
clean the response, and substitute a random fallback again when the cleaned
text is empty or shorter than 5 characters. -/
def finishChat (raw : String) (model : String) (attempted : List String)
    (i : Fin 5) : ChatReply :=
  let resp1 := if raw == "" then pickFallback i else raw
  let used1 := if raw == "" then "fallback" else model
  let resp2 := cleanResponse resp1
  if resp2 == "" || resp2.length < 5 then
    { response := pickFallback i, modelUsed := some "fallback",
      attempted := attempted, status := 200 }
  else
    { response := resp2, modelUsed := some used1,
      attempted := attempted, status := 200 }

/-- The generation path (lines 250–391): try the primary model; on any
failure try the single backup model; if the backup also throws, the rethrown
error reaches the outer catch, which still answers 200 with a random
fallback sentence. -/
def generateChatReply (primary backup : Option String) (i : Fin 5) : ChatReply :=
  match primary with
  | some raw => finishChat raw chatPrimaryModel [chatPrimaryModel] i
  | none =>
    match backup with
    | some raw => finishChat raw chatBackupModel [chatPrimaryModel, chatBackupModel] i
    | none =>
      { response := pickFallback i, modelUsed := none,
        attempted := [chatPrimaryModel, chatBackupModel], status := 200 }

/-- One remote model attempt as issued by a fallback chain: the model fetched
and the `AbortSignal.timeout` bound attached to the request, when any. -/
structure FetchSpec where
  model : String
  timeoutMs : Option Nat
  deriving Repr, DecidableEq

/-- The generation chain's fetches in order: the primary call carries
`AbortSignal.timeout(5000)` (line 270); the backup call (lines 292–308)
attaches no signal. -/
def chatFetchPlan : List FetchSpec :=
  [⟨chatPrimaryModel, some 5000⟩, ⟨chatBackupModel, none⟩]

/-! ## `src/app/api/translate/route.ts` -/

/-- `INDIAN_LANGUAGE_MODELS` (lines 10–23). -/
def INDIAN_LANGUAGE_MODELS : List (String × String) :=
  [("en-hi", "Helsinki-NLP/opus-mt-en-hi"),
   ("hi-en", "Helsinki-NLP/opus-mt-hi-en"),
   ("en-ta", "Helsinki-NLP/opus-mt-en-ta"),
   ("ta-en", "Helsinki-NLP/opus-mt-ta-en"),
   ("en-te", "Helsinki-NLP/opus-mt-en-ta"),
   ("te-en", "Helsinki-NLP/opus-mt-mul-en"),
   ("en-bn", "Helsinki-NLP/opus-mt-en-NORTH_INDIAN"),
   ("bn-en", "Helsinki-NLP/opus-mt-NORTH_INDIAN-en"),
   ("en-ml", "Helsinki-NLP/opus-mt-en-dra"),
   ("ml-en", "Helsinki-NLP/opus-mt-mul-en"),
   ("en-kn", "Helsinki-NLP/opus-mt-en-dra"),
   ("kn-en", "Helsinki-NLP/opus-mt-mul-en")]

/-- `BACKUP_MODELS` (lines 26–30). -/
def BACKUP_MODELS : List String :=
  ["facebook/mbart-large-50-many-to-many-mmt",
   "facebook/nllb-200-distilled-600M",
   "ai4bharat/indictrans2-indic-en-1B"]

/-- `languageCodes` of `getLanguageCode` (lines 264–305). -/
def languageCodes : List (String × String) :=
  [("english", "en"), ("spanish", "es"), ("french", "fr"), ("german", "de"),
   ("italian", "it"), ("portuguese", "pt"), ("russian", "ru"),
   ("japanese", "ja"), ("chinese", "zh"), ("korean", "ko"), ("arabic", "ar"),
   ("hindi", "hi"), ("telugu", "te"), ("tamil", "ta"), ("kannada", "kn"),
   ("malayalam", "ml"), ("bengali", "bn"), ("turkish", "tr"), ("dutch", "nl"),
   ("swedish", "sv"), ("polish", "pl"), ("vietnamese", "vi"), ("thai", "th")]

/-- `getLanguageCode`: name lookup (case-insensitive), else any 2-character
identifier is taken as a code, else default to `"en"`. -/
def getLanguageCode (language : String) : String :=
  let lowerCaseLanguage := lowerStr language
  match lookupStr languageCodes lowerCaseLanguage with
  | some code => code
  | none =>
    if lowerCaseLanguage.length == 2 then lowerCaseLanguage else "en"

/-- `isIndianLanguage` (lines 239–241). -/
def isIndianLanguage (code : String) : Bool :=
  ["hi", "te", "ta", "kn", "ml", "bn", "gu", "mr", "pa", "or", "as", "sa"].contains
    (lowerStr code)

/-- Primary-model selection (lines 75–91): a specialized model when the pair
is an Indian-language pair registered in `INDIAN_LANGUAGE_MODELS`, otherwise
the generic `Helsinki-NLP/opus-mt-<src>-<tgt>` pattern. -/
def translatePrimaryModel (sourceLang targetLang : String) : String :=
  let sourceCode := getLanguageCode sourceLang
  let targetCode := getLanguageCode targetLang
  let languagePair := sourceCode ++ "-" ++ targetCode
  if (isIndianLanguage sourceCode || isIndianLanguage targetCode)
      && (lookupStr INDIAN_LANGUAGE_MODELS languagePair).isSome then
    (lookupStr INDIAN_LANGUAGE_MODELS languagePair).getD ""
  else
    "Helsinki-NLP/opus-mt-" ++ languagePair

/-- The translation chain's fetches in attempt order (lines 97–201): the
selected primary model with `AbortSignal.timeout(6000)`, then — only for
Indian-language pairs — the specialized indic model, then each entry of
`BACKUP_MODELS`; none of the attempts after the first carries a timeout
signal. -/
def translateFetchPlan (sourceLang targetLang : String) : List FetchSpec :=
  let sourceCode := getLanguageCode sourceLang
  let targetCode := getLanguageCode targetLang
  let isIndianLanguagePair := isIndianLanguage sourceCode || isIndianLanguage targetCode
  ⟨translatePrimaryModel sourceLang targetLang, some 6000⟩ ::
    ((if isIndianLanguagePair then [⟨"ai4bharat/indictrans2-indic-en-1B", none⟩] else [])
      ++ BACKUP_MODELS.map (fun m => ⟨m, none⟩))

/-- Outcome of one remote translation fetch, at the abstraction level of the
route's own unwrapping of the response at that call site: `threw msg` — the
`fetch` (or reading its body) threw, which covers network errors and the
`AbortSignal` timeout; `noResult` — the call returned, but with a
non-success status or a body that does not satisfy the site's success test;
`ok (some t)` — the site's success branch extracted the truthy translation
string `t`; `ok none` — the site's success branch ran without extracting a
truthy translation string. -/
inductive FetchOutcome where
  | threw (msg : String)
  | noResult
  | ok (text : Option String)
  deriving Repr, DecidableEq

/-- The backup-model loop (lines 164–201): each candidate is fetched inside
its own `try`/`catch`, so a thrown attempt (`threw`) and a non-success or
shape-mismatched response (`noResult`) both fall through to the next
candidate; a success-shaped body stops the loop — with its translation when
one was extracted (`ok (some text)`), or by the `break` with `translation`
still unset (`ok none`).  Returns the winning text/model pair, if any, and
the models actually fetched, in order. -/
def scanBackups (cands : List String) (oracle : String → FetchOutcome) :
    Option (String × String) × List String :=
  match cands with
  | [] => (none, [])
  | m :: rest =>
    match oracle m with
    | .ok (some text) => (some (text, m), [m])
    | .ok none => (none, [m])
    | _ => ((scanBackups rest oracle).1, m :: (scanBackups rest oracle).2)

def indicModel : String := "ai4bharat/indictrans2-indic-en-1B"

/-- The specialized Indian-language attempt (lines 128–162): fetched only
for Indian pairs, inside its own `try`/`catch`; any outcome other than an
extracted truthy translation leaves `translation` unset and control falls
through to the backup loop. -/
def tryIndic (isIndianLanguagePair : Bool) (oracle : String → FetchOutcome) :
    Option (String × String) × List String :=
  if isIndianLanguagePair then
    match oracle indicModel with
    | .ok (some text) => (some (text, indicModel), [indicModel])
    | _ => (none, [indicModel])
  else (none, [])

/-- What the translation route answers: the body's `translation` string, the
`model_used` it reports (absent on the error and not-available responses),
the HTTP status, and which models were actually fetched, in order. -/
structure TranslateReply where
  translation : String
  modelUsed : Option String
  status : Nat
  attempted : List String
  deriving Repr, DecidableEq

/-- Lines 124–217 after a primary attempt that produced no translation: the
specialized attempt for Indian pairs, then the backup loop (skipped entirely
when the specialized attempt already succeeded, by its `if (translation)
break`), then either the successful translation or the "Translation not
available" placeholder — both with status 200. -/
def translateBackupPhase (sourceLang targetLang : String)
    (oracle : String → FetchOutcome) (isIndianLanguagePair : Bool)
    (primaryModel : String) : TranslateReply :=
  match tryIndic isIndianLanguagePair oracle with
  | (some (text, m), att) =>
    { translation := text, modelUsed := some m, status := 200,
      attempted := primaryModel :: att }
  | (none, att) =>
    match scanBackups BACKUP_MODELS oracle with
    | (some (text, m), att2) =>
      { translation := text, modelUsed := some m, status := 200,
        attempted := primaryModel :: (att ++ att2) }
    | (none, att2) =>
      { translation := "Translation not available for " ++ sourceLang ++
          " to " ++ targetLang ++ ". Please try another language pair.",
        modelUsed := none, status := 200,
        attempted := primaryModel :: (att ++ att2) }

/-- The translation route's model-attempt sequence (lines 97–235) as a
function of the fetch oracle.  The primary fetch has no local `try`/`catch`:
when it throws — a network error or its 6-second `AbortSignal` timeout — the
catch at lines 219–222 rethrows to the handler's outer catch, which answers
status 500 with an error body and no other model is attempted.  Only a
primary call that returns without throwing but yields no usable translation
falls through to the specialized/backup attempts. -/
def runTranslateRoute (sourceLang targetLang : String)
    (oracle : String → FetchOutcome) : TranslateReply :=
  let primaryModel := translatePrimaryModel sourceLang targetLang
  let isIndianLanguagePair :=
    isIndianLanguage (getLanguageCode sourceLang)
      || isIndianLanguage (getLanguageCode targetLang)
  match oracle primaryModel with
  | .threw msg =>
    { translation := "Error occurred: " ++ msg, modelUsed := none,
      status := 500, attempted := [primaryModel] }
  | .ok (some text) =>
    { translation := text, modelUsed := some primaryModel, status := 200,
      attempted := [primaryModel] }
  | .ok none =>
    translateBackupPhase sourceLang targetLang oracle isIndianLanguagePair
      primaryModel
  | .noResult =>
    translateBackupPhase sourceLang targetLang oracle isIndianLanguagePair
      primaryModel

/-! ## `src/components/features/VoiceAssistant.tsx`

Three of the `BUILT_IN_RESPONSES` values interpolate `new Date()` at module
load; the table is therefore parameterized by the three formatted date/time
strings fixed at load time. -/

structure DateNow where
  timeString : String
  weekdayString : String
  dateString : String
  deriving Repr, DecidableEq

/-- `BUILT_IN_RESPONSES` (lines 13–43), in insertion order. -/
def BUILT_IN_RESPONSES (now : DateNow) : List (String × String) :=
  [("hello", "Hello! How can I assist you today?"),
   ("hi", "Hi there! How can I help you?"),
   ("hey", "Hey! What can I do for you?"),
   ("how are you", "I'm doing well, thank you! How can I help you?"),
   ("what can you do", "I can help with various tasks including: answering questions, checking weather, searching information, providing news updates, analyzing sentiment, and translating text. Just ask what you need!"),
   ("help", "I can assist with various tasks. Try asking about the weather, news, or just chat with me about any topic!"),
   ("what time is it", "It's currently " ++ now.timeString ++ "."),
   ("what day is it", "Today is " ++ now.weekdayString ++ "."),
   ("what is the date", "Today's date is " ++ now.dateString ++ "."),
   ("who are you", "I'm your AI voice assistant, designed to help you with various tasks through voice commands or text input."),
   ("what is your name", "I'm your AI assistant, designed to make your life easier through voice and text interaction."),
   ("what is the weather", "I'd need to know your location to provide accurate weather information. You can say something like 'What's the weather in London?'"),
   ("tell me a joke", "Why don't scientists trust atoms? Because they make up everything!"),
   ("another joke", "What do you call a fake noodle? An impasta!"),
   ("thank you", "You're welcome! Is there anything else I can help you with?"),
   ("thanks", "No problem at all! Let me know if you need anything else.")]

/-- `input.toLowerCase().trim()`. -/
def normalizeInput (input : String) : String :=
  jsTrimStr (lowerStr input)

/-- The word-overlap test of `findBestMatch`'s third pass (lines 62–71):
`overlap.length > 0 && overlap.length >= keyWords.length / 2`, with the
JavaScript float division expressed exactly over naturals. -/
def wordOverlapCond (key normalizedInput : String) : Bool :=
  let keyWords := jsSplitStr key " "
  let inputWords := jsSplitStr normalizedInput " "
  let overlap := keyWords.filter (fun word => inputWords.contains word)
  decide (0 < overlap.length) && decide (keyWords.length ≤ 2 * overlap.length)

/-- `findBestMatch` (lines 46–74): exact key lookup, then the first key that
is contained in the normalized input or contains it, then the first key
passing the word-overlap test. -/
def findBestMatch (now : DateNow) (input : String) : Option String :=
  let normalizedInput := normalizeInput input
  match lookupStr (BUILT_IN_RESPONSES now) normalizedInput with
  | some response => some response
  | none =>
    match (BUILT_IN_RESPONSES now).find? (fun kv =>
        containsList normalizedInput.toList kv.1.toList
          || containsList kv.1.toList normalizedInput.toList) with
    | some kv => some kv.2
    | none =>
      match (BUILT_IN_RESPONSES now).find? (fun kv =>
          wordOverlapCond kv.1 normalizedInput) with
      | some kv => some kv.2
      | none => none

/-- `COMMON_QUESTIONS` (lines 85–96). -/
def COMMON_QUESTIONS : List (String × String) :=
  [("what is the capital of france", "The capital of France is Paris."),
   ("how tall is mount everest", "Mount Everest is approximately 29,032 feet (8,849 meters) tall, making it the highest mountain on Earth."),
   ("who wrote romeo and juliet", "Romeo and Juliet was written by William Shakespeare."),
   ("what is the largest planet", "Jupiter is the largest planet in our solar system."),
   ("when was the declaration of independence signed", "The Declaration of Independence was signed on July 4, 1776."),
   ("how many continents are there", "There are seven continents: Africa, Antarctica, Asia, Europe, North America, Australia/Oceania, and South America."),
   ("what is the speed of light", "The speed of light in a vacuum is approximately 299,792,458 meters per second (about 186,282 miles per second)."),
   ("who invented the telephone", "Alexander Graham Bell is credited with inventing the first practical telephone in 1876."),
   ("what is the chemical symbol for gold", "The chemical symbol for gold is Au (from the Latin word \"aurum\")."),
   ("how many elements are in the periodic table", "There are 118 elements in the modern periodic table.")]

/-- `calculateSimilarity(a, b) > 0.7`, i.e.
`commonWords.length / totalUniqueWords > 0.7`, expressed exactly over
naturals as `10 * commonWords.length > 7 * totalUniqueWords`. -/
def similarityGt07 (a b : String) : Bool :=
  let aWords := jsSplitStr (lowerStr a) " "
  let bWords := jsSplitStr (lowerStr b) " "
  let commonWords := aWords.filter (fun word => bWords.contains word)
  let totalUniqueWords := (aWords ++ bWords).dedup.length
  decide (7 * totalUniqueWords < 10 * commonWords.length)

/-- `checkCommonQuestion` (lines 211–229): direct key match, then the first
entry whose question contains / is contained in / is similar to the
normalized text. -/
def checkCommonQuestion (text : String) : Option String :=
  let normalizedText := normalizeInput text
  match lookupStr COMMON_QUESTIONS normalizedText with
  | some answer => some answer
  | none =>
    (COMMON_QUESTIONS.find? (fun qa =>
        containsList normalizedText.toList qa.1.toList
          || containsList qa.1.toList normalizedText.toList
          || similarityGt07 normalizedText qa.1)).map (·.2)

/-- `generalAnswers` (lines 77–82). -/
def generalAnswers : List String :=
  ["Based on my knowledge, ", "I believe ", "As far as I understand, ",
   "From what I know, "]

/-- How the assistant answers one utterance: with a built-in response, with a
common-question answer, or by sending the text to the remote `/api/chat`
endpoint. -/
inductive AssistantAction where
  | builtIn (response : String)
  | commonQuestion (response : String)
  | sendToAPI (text : String)
  deriving Repr, DecidableEq

/-- The common-question answer as phrased by `processVoiceInput`
(lines 258–262), with the random `generalAnswers` prefix drawn at `g`. -/
def fullCommonAnswer (text commonAnswer : String) (g : Fin 4) : String :=
  let lower := lowerStr text
  if startsWithStr lower "what" || startsWithStr lower "who"
      || startsWithStr lower "when" || startsWithStr lower "how" then
    commonAnswer
  else
    generalAnswers.getD g.val "" ++ lowerStr commonAnswer

/-- `processVoiceInput` (lines 243–274): built-in responses first, then
common questions, and only otherwise `sendMessageToAPI`. -/
def processVoiceInput (now : DateNow) (g : Fin 4) (text : String) :
    AssistantAction :=
  match findBestMatch now text with
  | some builtInResponse => .builtIn builtInResponse
  | none =>
    match checkCommonQuestion text with
    | some commonAnswer => .commonQuestion (fullCommonAnswer text commonAnswer g)
    | none => .sendToAPI text

/-- The common-question answer as phrased by `handleSubmit` (lines 420–424,
which test only `what`/`who`). -/
def fullCommonAnswerSubmit (text commonAnswer : String) (g : Fin 4) : String :=
  let lower := lowerStr text
  if startsWithStr lower "what" || startsWithStr lower "who" then
    commonAnswer
  else
    generalAnswers.getD g.val "" ++ lowerStr commonAnswer

/-- `handleSubmit` (lines 401–435): ignore blank input, then built-in
responses (looked up on the lowercased text), then common questions, then
the remote API. -/
def handleSubmitAction (now : DateNow) (g : Fin 4) (inputText : String) :
    Option AssistantAction :=
  if jsTrimStr inputText == "" then none
  else
    match findBestMatch now (lowerStr inputText) with
    | some builtInResponse => some (.builtIn builtInResponse)
    | none =>
      match checkCommonQuestion inputText with
      | some commonAnswer =>
        some (.commonQuestion (fullCommonAnswerSubmit inputText commonAnswer g))
      | none => some (.sendToAPI inputText)

/-! ## Lemmas about the string primitives -/

theorem containsList_cons (c : Char) (rest sep : List Char) :
    containsList (c :: rest) sep =
      (sep.isPrefixOf (c :: rest) || containsList rest sep) := by
  simp [containsList, List.tails_cons]

theorem containsList_of_idx {sep l : List Char} {k : Nat}
    (h : idxOfSub sep l = some k) : containsList l sep = true := by
  induction l generalizing k with
  | nil =>
    simp only [idxOfSub] at h
    split at h
    · simp_all [containsList]
    · exact absurd h (by simp)
  | cons c rest ih =>
    rw [containsList_cons]
    simp only [idxOfSub] at h
    split at h
    · simp_all
    · rcases Option.map_eq_some'.mp h with ⟨k2, hk2, -⟩
      simp [ih hk2]

theorem jsSplitFuel_congr (sep : List Char) :
    ∀ (fuel1 fuel2 : Nat) (l : List Char), l.length ≤ fuel1 → l.length ≤ fuel2 →
      jsSplitFuel sep fuel1 l = jsSplitFuel sep fuel2 l := by
  intro fuel1
  induction fuel1 with
  | zero =>
    intro fuel2 l h1 h2
    have : l = [] := List.eq_nil_of_length_eq_zero (Nat.le_zero.mp h1)
    subst this
    cases fuel2 <;> rfl
  | succ f1 ih =>
    intro fuel2 l h1 h2
    cases l with
    | nil => cases fuel2 <;> rfl
    | cons c rest =>
      cases fuel2 with
      | zero => simp at h2
      | succ f2 =>
        simp only [jsSplitFuel]
        by_cases hpre : sep ≠ [] ∧ sep.isPrefixOf (c :: rest)
        · rw [if_pos hpre, if_pos hpre]
          have hseplen : 1 ≤ sep.length := by
            rcases List.exists_cons_of_ne_nil hpre.1 with ⟨s0, ss, rfl⟩
            simp
          have hlen : ((c :: rest).drop sep.length).length ≤ f1 := by
            simp only [List.length_drop, List.length_cons] at *
            omega
          have hlen2 : ((c :: rest).drop sep.length).length ≤ f2 := by
            simp only [List.length_drop, List.length_cons] at *
            omega
          rw [ih f2 _ hlen hlen2]
        · rw [if_neg hpre, if_neg hpre]
          have hlen : rest.length ≤ f1 := by
            simp only [List.length_cons] at h1
            omega
          have hlen2 : rest.length ≤ f2 := by
            simp only [List.length_cons] at h2
            omega
          rw [ih f2 rest hlen hlen2]

theorem jsSplit_nil (sep : List Char) : jsSplit sep [] = [[]] := rfl

theorem jsSplit_cons (sep : List Char) (c : Char) (rest : List Char) :
    jsSplit sep (c :: rest) =
      if sep ≠ [] ∧ sep.isPrefixOf (c :: rest) then
        [] :: jsSplit sep ((c :: rest).drop sep.length)
      else
        match jsSplit sep rest with
        | [] => [[c]]
        | h2 :: t2 => (c :: h2) :: t2 := by
  show jsSplitFuel sep (rest.length + 1) (c :: rest) = _
  simp only [jsSplitFuel]
  by_cases hpre : sep ≠ [] ∧ sep.isPrefixOf (c :: rest)
  · rw [if_pos hpre, if_pos hpre]
    have hseplen : 1 ≤ sep.length := by
      rcases List.exists_cons_of_ne_nil hpre.1 with ⟨s0, ss, rfl⟩
      simp
    have h1 : ((c :: rest).drop sep.length).length ≤ rest.length := by
      simp only [List.length_drop, List.length_cons]
      omega
    rw [jsSplitFuel_congr sep rest.length ((c :: rest).drop sep.length).length _ h1 (le_refl _)]
    rfl
  · rw [if_neg hpre, if_neg hpre]
    rfl

theorem jsSplit_ne_nil (sep l : List Char) : jsSplit sep l ≠ [] := by
  cases l with
  | nil => rw [jsSplit_nil]; simp
  | cons c rest =>
    rw [jsSplit_cons]
    split
    · simp
    · split <;> simp

theorem jsSplit_head (sep : List Char) (hsep : sep ≠ []) (l : List Char) :
    (jsSplit sep l).getD 0 [] = l.take ((idxOfSub sep l).getD l.length) := by
  induction l with
  | nil =>
    rw [jsSplit_nil]
    have hnp : ¬ sep.isPrefixOf ([] : List Char) := by
      cases sep with
      | nil => exact absurd rfl hsep
      | cons s ss => simp [List.isPrefixOf]
    simp [idxOfSub, hnp]
  | cons c rest ih =>
    rw [jsSplit_cons]
    by_cases hpre : sep.isPrefixOf (c :: rest)
    · rw [if_pos ⟨hsep, hpre⟩]
      simp [idxOfSub, hpre]
    · have hguard : ¬ (sep ≠ [] ∧ sep.isPrefixOf (c :: rest)) := by
        intro hand; exact hpre hand.2
      rw [if_neg hguard]
      rcases hrec : jsSplit sep rest with _ | ⟨h2, t2⟩
      · exact absurd hrec (jsSplit_ne_nil sep rest)
      · rw [hrec] at ih
        simp only [List.getD_cons_zero] at ih
        simp only [List.getD_cons_zero]
        rw [idxOfSub, if_neg hpre]
        cases hidx : idxOfSub sep rest with
        | none =>
          rw [hidx] at ih
          simp only [Option.getD_none] at ih
          rw [ih]
          simp [List.take_succ_cons, List.take_length]
        | some k =>
          rw [hidx] at ih
          simp only [Option.getD_some] at ih
          rw [ih]
          simp [List.take_succ_cons]

theorem jsSplit_cut (sep : List Char) (hsep : sep ≠ []) (a b : List Char)
    (hidx : idxOfSub sep (a ++ sep ++ b) = some a.length) :
    jsSplit sep (a ++ sep ++ b) = a :: jsSplit sep b := by
  induction a with
  | nil =>
    rcases List.exists_cons_of_ne_nil hsep with ⟨s0, srest, rfl⟩
    have hform : ([] : List Char) ++ (s0 :: srest) ++ b = s0 :: (srest ++ b) := by simp
    rw [hform]
    rw [jsSplit_cons]
    have hpre : (s0 :: srest).isPrefixOf (s0 :: (srest ++ b)) := by
      rw [List.isPrefixOf_iff_prefix]
      have : s0 :: (srest ++ b) = (s0 :: srest) ++ b := by simp
      rw [this]
      exact List.prefix_append _ _
    rw [if_pos ⟨hsep, hpre⟩]
    have hdrop : (s0 :: (srest ++ b)).drop (s0 :: srest).length = b := by
      have : s0 :: (srest ++ b) = (s0 :: srest) ++ b := by simp
      rw [this, List.drop_left]
    rw [hdrop]
  | cons c a2 ih =>
    have hcons : (c :: a2) ++ sep ++ b = c :: (a2 ++ sep ++ b) := by simp
    rw [hcons] at hidx ⊢
    rw [idxOfSub] at hidx
    by_cases hpre : sep.isPrefixOf (c :: (a2 ++ sep ++ b))
    · rw [if_pos hpre] at hidx
      simp at hidx
    · rw [if_neg hpre] at hidx
      rcases Option.map_eq_some'.mp hidx with ⟨k2, hk2, hk2e⟩
      have hk2' : k2 = a2.length := by
        simp only [List.length_cons] at hk2e
        omega
      subst hk2'
      have ihr := ih hk2
      rw [jsSplit_cons]
      have hguard : ¬ (sep ≠ [] ∧ sep.isPrefixOf (c :: (a2 ++ sep ++ b))) := by
        intro hand; exact hpre hand.2
      rw [if_neg hguard, ihr]

theorem jsSplit_long_of_contains (sep : List Char) (hsep : sep ≠ [])
    (l : List Char) (h : containsList l sep = true) :
    1 < (jsSplit sep l).length := by
  induction l with
  | nil =>
    rw [containsList] at h
    rcases List.exists_cons_of_ne_nil hsep with ⟨s0, srest, rfl⟩
    simp [List.isPrefixOf] at h
  | cons c rest ih =>
    rw [jsSplit_cons]
    by_cases hpre : sep.isPrefixOf (c :: rest)
    · rw [if_pos ⟨hsep, hpre⟩]
      have hne := jsSplit_ne_nil sep ((c :: rest).drop sep.length)
      have hpos : 0 < (jsSplit sep ((c :: rest).drop sep.length)).length :=
        List.length_pos.mpr hne
      simp only [List.length_cons]
      omega
    · have hguard : ¬ (sep ≠ [] ∧ sep.isPrefixOf (c :: rest)) := by
        intro hand; exact hpre hand.2
      rw [if_neg hguard]
      rw [containsList_cons] at h
      have hcr : containsList rest sep = true := by
        rcases (Bool.or_eq_true _ _).mp h with h1 | h2
        · exact absurd h1 (by simp [hpre])
        · exact h2
      have ihr := ih hcr
      rcases hrec : jsSplit sep rest with _ | ⟨h2, t2⟩
      · exact absurd hrec (jsSplit_ne_nil sep rest)
      · rw [hrec] at ihr
        simpa using ihr

/-! ## Lemmas about the regular-expression engine

These establish, for any successful match: the remainder is a suffix of the
input consumed by at least `minLen r` characters; capture entries only
accumulate; every recorded capture of a group is at least as long as the
minimum length of that group's body; and every group not under an
alternative is bound.  Together they show that `match[1]` of the
parameter-extracting `COMMAND_PATTERNS` entries is always a non-empty string
whenever the pattern matches at all. -/

/-- Minimum number of characters any match of `r` consumes. -/
def minLen : Re → Nat
  | .lit p => p.length
  | .cls _ => 1
  | .alt r1 r2 => min (minLen r1) (minLen r2)
  | .seq r1 r2 => minLen r1 + minLen r2
  | .grp _ r => minLen r
  | .rep _ lo _ _ => lo

/-- Each capture group of `r` with the minimum length of its body. -/
def groupBounds : Re → List (Nat × Nat)
  | .lit _ => []
  | .cls _ => []
  | .alt r1 r2 => groupBounds r1 ++ groupBounds r2
  | .seq r1 r2 => groupBounds r1 ++ groupBounds r2
  | .grp i r => (i, minLen r) :: groupBounds r
  | .rep _ _ _ _ => []

/-- The capture groups of `r` bound on every successful match (conservatively:
groups not under an alternative). -/
def mandGroups : Re → List Nat
  | .lit _ => []
  | .cls _ => []
  | .alt _ _ => []
  | .seq r1 r2 => mandGroups r1 ++ mandGroups r2
  | .grp i r => i :: mandGroups r
  | .rep _ _ _ _ => []

theorem lcStarts_length {p inp : List Char} (h : lcStarts p inp = true) :
    p.length ≤ inp.length := by
  induction p generalizing inp with
  | nil => simp
  | cons pc ps ih =>
    cases inp with
    | nil => simp [lcStarts] at h
    | cons c cs =>
      simp only [lcStarts, Bool.and_eq_true] at h
      have := ih h.2
      simp only [List.length_cons]
      omega

theorem mem_bindOuts {outs : List (List Char × Caps)}
    {f : List Char → Caps → List (List Char × Caps)} {x : List Char × Caps} :
    x ∈ bindOuts outs f ↔ ∃ o ∈ outs, x ∈ f o.1 o.2 := by
  induction outs with
  | nil => simp [bindOuts]
  | cons o rest ih => simp [bindOuts, List.mem_append, ih]

theorem repTails_drop_mem {cc : CClass} {inp rest : List Char}
    {lo : Nat} {hi : Option Nat}
    (h : rest ∈ (repTails cc hi inp).drop lo) :
    ∃ k, lo ≤ k ∧ k ≤ inp.length ∧ rest = inp.drop k := by
  induction inp generalizing lo hi with
  | nil =>
    cases lo with
    | zero =>
      simp [repTails] at h
      exact ⟨0, by simp [h]⟩
    | succ l => simp [repTails] at h
  | cons c cs ih =>
    rw [repTails] at h
    cases lo with
    | zero =>
      rw [List.drop_zero] at h
      rcases List.mem_cons.mp h with h0 | hrest
      · exact ⟨0, by simp [h0]⟩
      · split at hrest
        · have hmem : rest ∈ (repTails cc (hi.map (fun n => n - 1)) cs).drop 0 := by
            simpa using hrest
          rcases ih hmem with ⟨k, -, hk2, hk3⟩
          exact ⟨k + 1, by omega, by simp; omega, by simpa using hk3⟩
        · simp at hrest
    | succ l =>
      rw [List.drop_succ_cons] at h
      split at h
      · rcases ih h with ⟨k, hk1, hk2, hk3⟩
        exact ⟨k + 1, by omega, by simp; omega, by simpa using hk3⟩
      · simp at h

theorem matchRe_rest (r : Re) :
    ∀ (inp : List Char) (caps : Caps) (out : List Char × Caps),
      out ∈ matchRe r inp caps →
      ∃ k, minLen r ≤ k ∧ k ≤ inp.length ∧ out.1 = inp.drop k := by
  induction r with
  | lit p =>
    intro inp caps out h
    simp only [matchRe] at h
    split at h
    · rcases List.mem_singleton.mp h with rfl
      exact ⟨p.length, le_refl _, lcStarts_length (by assumption), rfl⟩
    · simp at h
  | cls cc =>
    intro inp caps out h
    cases inp with
    | nil => simp [matchRe] at h
    | cons c cs =>
      simp only [matchRe] at h
      split at h
      · rcases List.mem_singleton.mp h with rfl
        exact ⟨1, le_refl _, by simp, rfl⟩
      · simp at h
  | alt r1 r2 ih1 ih2 =>
    intro inp caps out h
    simp only [matchRe, List.mem_append] at h
    rcases h with h | h
    · rcases ih1 inp caps out h with ⟨k, hk1, hk2, hk3⟩
      exact ⟨k, le_trans (by simp [minLen]) hk1, hk2, hk3⟩
    · rcases ih2 inp caps out h with ⟨k, hk1, hk2, hk3⟩
      exact ⟨k, le_trans (by simp [minLen]) hk1, hk2, hk3⟩
  | seq r1 r2 ih1 ih2 =>
    intro inp caps out h
    simp only [matchRe] at h
    rcases mem_bindOuts.mp h with ⟨mid, hmid, hout⟩
    rcases ih1 inp caps mid hmid with ⟨k1, hk11, hk12, hk13⟩
    rcases ih2 mid.1 mid.2 out hout with ⟨k2, hk21, hk22, hk23⟩
    refine ⟨k1 + k2, ?_, ?_, ?_⟩
    · simp only [minLen]; omega
    · rw [hk13, List.length_drop] at hk22; omega
    · rw [hk23, hk13, List.drop_drop, Nat.add_comm]
  | grp i r ih =>
    intro inp caps out h
    simp only [matchRe, List.mem_map] at h
    rcases h with ⟨o, ho, rfl⟩
    rcases ih inp caps o ho with ⟨k, hk1, hk2, hk3⟩
    exact ⟨k, hk1, hk2, hk3⟩
  | rep cc lo hi lz =>
    intro inp caps out h
    simp only [matchRe, List.mem_map] at h
    rcases h with ⟨rest, hrest, rfl⟩
    have hmem : rest ∈ (repTails cc hi inp).drop lo := by
      split at hrest
      · exact hrest
      · exact List.mem_reverse.mp hrest
    rcases repTails_drop_mem hmem with ⟨k, hk1, hk2, hk3⟩
    exact ⟨k, hk1, hk2, hk3⟩

theorem matchRe_caps_mono (r : Re) :
    ∀ (inp : List Char) (caps : Caps) (out : List Char × Caps),
      out ∈ matchRe r inp caps → ∀ p ∈ caps, p ∈ out.2 := by
  induction r with
  | lit p =>
    intro inp caps out h q hq
    simp only [matchRe] at h
    split at h
    · rcases List.mem_singleton.mp h with rfl
      exact hq
    · simp at h
  | cls cc =>
    intro inp caps out h q hq
    cases inp with
    | nil => simp [matchRe] at h
    | cons c cs =>
      simp only [matchRe] at h
      split at h
      · rcases List.mem_singleton.mp h with rfl
        exact hq
      · simp at h
  | alt r1 r2 ih1 ih2 =>
    intro inp caps out h q hq
    simp only [matchRe, List.mem_append] at h
    rcases h with h | h
    · exact ih1 inp caps out h q hq
    · exact ih2 inp caps out h q hq
  | seq r1 r2 ih1 ih2 =>
    intro inp caps out h q hq
    simp only [matchRe] at h
    rcases mem_bindOuts.mp h with ⟨mid, hmid, hout⟩
    exact ih2 mid.1 mid.2 out hout q (ih1 inp caps mid hmid q hq)
  | grp i r ih =>
    intro inp caps out h q hq
    simp only [matchRe, List.mem_map] at h
    rcases h with ⟨o, ho, rfl⟩
    exact List.mem_cons_of_mem _ (ih inp caps o ho q hq)
  | rep cc lo hi lz =>
    intro inp caps out h q hq
    simp only [matchRe, List.mem_map] at h
    rcases h with ⟨rest, -, rfl⟩
    exact hq

theorem matchRe_caps_bound (r : Re) :
    ∀ (inp : List Char) (caps : Caps) (out : List Char × Caps),
      out ∈ matchRe r inp caps →
      ∀ p ∈ out.2, p ∈ caps ∨ ∃ b ∈ groupBounds r, b.1 = p.1 ∧ b.2 ≤ p.2.length := by
  induction r with
  | lit p =>
    intro inp caps out h q hq
    simp only [matchRe] at h
    split at h
    · rcases List.mem_singleton.mp h with rfl
      exact Or.inl hq
    · simp at h
  | cls cc =>
    intro inp caps out h q hq
    cases inp with
    | nil => simp [matchRe] at h
    | cons c cs =>
      simp only [matchRe] at h
      split at h
      · rcases List.mem_singleton.mp h with rfl
        exact Or.inl hq
      · simp at h
  | alt r1 r2 ih1 ih2 =>
    intro inp caps out h q hq
    simp only [matchRe, List.mem_append] at h
    rcases h with h | h
    · rcases ih1 inp caps out h q hq with hc | ⟨b, hb, hbe⟩
      · exact Or.inl hc
      · exact Or.inr ⟨b, by simp [groupBounds, List.mem_append, hb], hbe⟩
    · rcases ih2 inp caps out h q hq with hc | ⟨b, hb, hbe⟩
      · exact Or.inl hc
      · exact Or.inr ⟨b, by simp [groupBounds, List.mem_append, hb], hbe⟩
  | seq r1 r2 ih1 ih2 =>
    intro inp caps out h q hq
    simp only [matchRe] at h
    rcases mem_bindOuts.mp h with ⟨mid, hmid, hout⟩
    rcases ih2 mid.1 mid.2 out hout q hq with hc | ⟨b, hb, hbe⟩
    · rcases ih1 inp caps mid hmid q hc with hc1 | ⟨b, hb, hbe⟩
      · exact Or.inl hc1
      · exact Or.inr ⟨b, by simp [groupBounds, List.mem_append, hb], hbe⟩
    · exact Or.inr ⟨b, by simp [groupBounds, List.mem_append, hb], hbe⟩
  | grp i r ih =>
    intro inp caps out h q hq
    simp only [matchRe, List.mem_map] at h
    rcases h with ⟨o, ho, rfl⟩
    rcases List.mem_cons.mp hq with rfl | hq2
    · rcases matchRe_rest r inp caps o ho with ⟨k, hk1, hk2, hk3⟩
      refine Or.inr ⟨(i, minLen r), List.mem_cons_self _ _, rfl, ?_⟩
      have hlen : o.1.length = inp.length - k := by rw [hk3, List.length_drop]
      simp only [List.length_take, hlen]
      omega
    · rcases ih inp caps o ho q hq2 with hc | ⟨b, hb, hbe⟩
      · exact Or.inl hc
      · exact Or.inr ⟨b, List.mem_cons_of_mem _ hb, hbe⟩
  | rep cc lo hi lz =>
    intro inp caps out h q hq
    simp only [matchRe, List.mem_map] at h
    rcases h with ⟨rest, -, rfl⟩
    exact Or.inl hq

theorem matchRe_mand (r : Re) :
    ∀ (inp : List Char) (caps : Caps) (out : List Char × Caps),
      out ∈ matchRe r inp caps → ∀ i ∈ mandGroups r, ∃ s, (i, s) ∈ out.2 := by
  induction r with
  | lit p => intro inp caps out h i hi; simp [mandGroups] at hi
  | cls cc => intro inp caps out h i hi; simp [mandGroups] at hi
  | alt r1 r2 ih1 ih2 => intro inp caps out h i hi; simp [mandGroups] at hi
  | seq r1 r2 ih1 ih2 =>
    intro inp caps out h i hi
    simp only [matchRe] at h
    rcases mem_bindOuts.mp h with ⟨mid, hmid, hout⟩
    simp only [mandGroups, List.mem_append] at hi
    rcases hi with hi | hi
    · rcases ih1 inp caps mid hmid i hi with ⟨s, hs⟩
      exact ⟨s, matchRe_caps_mono r2 mid.1 mid.2 out hout (i, s) hs⟩
    · exact ih2 mid.1 mid.2 out hout i hi
  | grp j r ih =>
    intro inp caps out h i hi
    simp only [matchRe, List.mem_map] at h
    rcases h with ⟨o, ho, rfl⟩
    simp only [mandGroups, List.mem_cons] at hi
    rcases hi with rfl | hi
    · exact ⟨_, List.mem_cons_self _ _⟩
    · rcases ih inp caps o ho i hi with ⟨s, hs⟩
      exact ⟨s, List.mem_cons_of_mem _ hs⟩
  | rep cc lo hi lz => intro inp caps out h i hi2; simp [mandGroups] at hi2

theorem searchFrom_mem {r : Re} {l : List Char} {out : List Char × Caps}
    (h : searchFrom r l = some out) : ∃ l2, out ∈ matchRe r l2 [] := by
  induction l with
  | nil =>
    simp only [searchFrom] at h
    rcases hm : matchRe r [] [] with _ | ⟨o, t⟩
    · rw [hm] at h; simp at h
    · rw [hm] at h
      simp only [Option.some.injEq] at h
      exact ⟨[], by rw [hm, ← h]; exact List.mem_cons_self _ _⟩
  | cons c rest ih =>
    simp only [searchFrom] at h
    rcases hm : matchRe r (c :: rest) [] with _ | ⟨o, t⟩
    · rw [hm] at h
      exact ih h
    · rw [hm] at h
      simp only [Option.some.injEq] at h
      exact ⟨c :: rest, by rw [hm, ← h]; exact List.mem_cons_self _ _⟩

theorem lookupCap_exists {caps : Caps} {i : Nat}
    (h : ∃ s, (i, s) ∈ caps) : ∃ s, lookupCap caps i = some s := by
  induction caps with
  | nil => simp at h
  | cons q rest ih =>
    rcases q with ⟨j, t⟩
    by_cases hj : j = i
    · subst hj
      exact ⟨t, by simp [lookupCap, List.find?]⟩
    · rcases h with ⟨s, hs⟩
      rcases List.mem_cons.mp hs with heq | hmem
      · exact absurd (congrArg Prod.fst heq).symm hj
      · rcases ih ⟨s, hmem⟩ with ⟨s2, hs2⟩
        refine ⟨s2, ?_⟩
        simp only [lookupCap, List.find?] at hs2 ⊢
        have : (j == i) = false := by simp [hj]
        rw [this]
        exact hs2

theorem lookupCap_mem {caps : Caps} {i : Nat} {s : List Char}
    (h : lookupCap caps i = some s) : (i, s) ∈ caps := by
  induction caps with
  | nil => simp [lookupCap] at h
  | cons q rest ih =>
    rcases q with ⟨j, t⟩
    simp only [lookupCap, List.find?] at h
    by_cases hj : (j == i) = true
    · rw [hj] at h
      simp only [Option.map_some', Option.some.injEq] at h
      have hji : j = i := by simpa using hj
      subst hji
      rw [h]
      exact List.mem_cons_self _ _
    · rw [Bool.not_eq_true] at hj
      rw [hj] at h
      exact List.mem_cons_of_mem _ (ih h)

theorem reGroup_of_none {r : Re} {i : Nat} {t : String}
    (h : reTest r t = false) : reGroup r i t = none := by
  unfold reGroup
  cases hs : searchFrom r t.toList with
  | none => simp
  | some out =>
    unfold reTest at h
    rw [hs] at h
    simp at h

theorem reTest_group_truthy {r : Re} {i : Nat} {t : String}
    (hb : ∀ b ∈ groupBounds r, b.1 = i → 1 ≤ b.2)
    (hm : i ∈ mandGroups r)
    (h : reTest r t = true) : jsTruthy (reGroup r i t) = true := by
  simp only [reTest, Option.isSome_iff_exists] at h
  rcases h with ⟨out, hout⟩
  rcases searchFrom_mem hout with ⟨l2, hmem⟩
  rcases matchRe_mand r l2 [] out hmem i hm with ⟨s, hs⟩
  rcases lookupCap_exists ⟨s, hs⟩ with ⟨s1, hs1⟩
  have hmem1 : (i, s1) ∈ out.2 := lookupCap_mem hs1
  rcases matchRe_caps_bound r l2 [] out hmem (i, s1) hmem1 with hc | ⟨b, hbm, hb1, hb2⟩
  · simp at hc
  · have hlen : 1 ≤ s1.length := le_trans (hb b hbm hb1) hb2
    have hne : String.mk s1 ≠ "" := by
      intro hcontra
      have hdat : s1 = [] := by
        have h2 : (String.mk s1).data = ("" : String).data := by rw [hcontra]
        simpa using h2
      rw [hdat] at hlen
      simp at hlen
    have hformula : reGroup r i t = some (String.mk s1) := by
      unfold reGroup
      rw [hout]
      simp [hs1]
    rw [hformula]
    simp [jsTruthy, hne]

theorem jsTruthy_reGroup_false {r : Re} {i : Nat} {t : String}
    (h : reTest r t = false) : jsTruthy (reGroup r i t) = false := by
  rw [reGroup_of_none h]
  rfl

/-- `C2`: the command router evaluates its intent patterns in the fixed order
help, time, date, joke, weather, stock, news, translate, sentiment, and
returns the intent of the first pattern that matches the input even when a
later pattern would also match; if no pattern matches, it returns the `none`
sentinel (general-chat path). -/
theorem C2_router_order (t : String) :
    (reTest helpRe t = true → detectCommands t = ⟨some "help", []⟩) ∧
    (reTest helpRe t = false → reTest timeRe t = true →
      detectCommands t = ⟨some "time", []⟩) ∧
    (reTest helpRe t = false → reTest timeRe t = false →
      reTest dateRe t = true → detectCommands t = ⟨some "date", []⟩) ∧
    (reTest helpRe t = false → reTest timeRe t = false →
      reTest dateRe t = false → reTest jokeRe t = true →
      detectCommands t = ⟨some "joke", []⟩) ∧
    (reTest helpRe t = false → reTest timeRe t = false →
      reTest dateRe t = false → reTest jokeRe t = false →
      reTest weatherRe t = true → (detectCommands t).command = some "weather") ∧
    (reTest helpRe t = false → reTest timeRe t = false →
      reTest dateRe t = false → reTest jokeRe t = false →
      reTest weatherRe t = false → reTest stockPriceRe t = true →
      (detectCommands t).command = some "stock") ∧
    (reTest helpRe t = false → reTest timeRe t = false →
      reTest dateRe t = false → reTest jokeRe t = false →
      reTest weatherRe t = false → reTest stockPriceRe t = false →
      reTest newsRe t = true → (detectCommands t).command = some "news") ∧
    (reTest helpRe t = false → reTest timeRe t = false →
      reTest dateRe t = false → reTest jokeRe t = false →
      reTest weatherRe t = false → reTest stockPriceRe t = false →
      reTest newsRe t = false → reTest translateRe t = true →
      (detectCommands t).command = some "translate") ∧
    (reTest helpRe t = false → reTest timeRe t = false →
      reTest dateRe t = false → reTest jokeRe t = false →
      reTest weatherRe t = false → reTest stockPriceRe t = false →
      reTest newsRe t = false → reTest translateRe t = false →
      reTest sentimentRe t = true → (detectCommands t).command = some "sentiment") ∧
    (reTest helpRe t = false → reTest timeRe t = false →
      reTest dateRe t = false → reTest jokeRe t = false →
      reTest weatherRe t = false → reTest stockPriceRe t = false →
      reTest newsRe t = false → reTest translateRe t = false →
      reTest sentimentRe t = false → detectCommands t = ⟨none, []⟩) := by
  refine ⟨?_, ?_, ?_, ?_, ?_, ?_, ?_, ?_, ?_, ?_⟩
  · intro h1
    simp [detectCommands, h1]
  · intro h1 h2
    simp [detectCommands, h1, h2]
  · intro h1 h2 h3
    simp [detectCommands, h1, h2, h3]
  · intro h1 h2 h3 h4
    simp [detectCommands, h1, h2, h3, h4]
  · intro h1 h2 h3 h4 h5
    have hw : jsTruthy (reGroup weatherRe 1 t) = true :=
      reTest_group_truthy (by decide) (by decide) h5
    simp [detectCommands, h1, h2, h3, h4, hw]
  · intro h1 h2 h3 h4 h5 h6
    have hw : jsTruthy (reGroup weatherRe 1 t) = false := jsTruthy_reGroup_false h5
    have hs : jsTruthy (reGroup stockPriceRe 1 t) = true :=
      reTest_group_truthy (by decide) (by decide) h6
    simp [detectCommands, h1, h2, h3, h4, hw, hs]
  · intro h1 h2 h3 h4 h5 h6 h7
    have hw : jsTruthy (reGroup weatherRe 1 t) = false := jsTruthy_reGroup_false h5
    have hs : jsTruthy (reGroup stockPriceRe 1 t) = false := jsTruthy_reGroup_false h6
    simp [detectCommands, h1, h2, h3, h4, hw, hs, h7]
  · intro h1 h2 h3 h4 h5 h6 h7 h8
    have hw : jsTruthy (reGroup weatherRe 1 t) = false := jsTruthy_reGroup_false h5
    have hs : jsTruthy (reGroup stockPriceRe 1 t) = false := jsTruthy_reGroup_false h6
    have ht1 : jsTruthy (reGroup translateRe 1 t) = true :=
      reTest_group_truthy (by decide) (by decide) h8
    have ht2 : jsTruthy (reGroup translateRe 2 t) = true :=
      reTest_group_truthy (by decide) (by decide) h8
    simp [detectCommands, h1, h2, h3, h4, hw, hs, h7, ht1, ht2]
  · intro h1 h2 h3 h4 h5 h6 h7 h8 h9
    have hw : jsTruthy (reGroup weatherRe 1 t) = false := jsTruthy_reGroup_false h5
    have hs : jsTruthy (reGroup stockPriceRe 1 t) = false := jsTruthy_reGroup_false h6
    have ht1 : jsTruthy (reGroup translateRe 1 t) = false := jsTruthy_reGroup_false h8
    have hsen : jsTruthy (reGroup sentimentRe 1 t) = true :=
      reTest_group_truthy (by decide) (by decide) h9
    simp [detectCommands, h1, h2, h3, h4, hw, hs, h7, ht1, hsen]
  · intro h1 h2 h3 h4 h5 h6 h7 h8 h9
    have hw : jsTruthy (reGroup weatherRe 1 t) = false := jsTruthy_reGroup_false h5
    have hs : jsTruthy (reGroup stockPriceRe 1 t) = false := jsTruthy_reGroup_false h6
    have ht1 : jsTruthy (reGroup translateRe 1 t) = false := jsTruthy_reGroup_false h8
    have hsen : jsTruthy (reGroup sentimentRe 1 t) = false := jsTruthy_reGroup_false h9
    simp [detectCommands, h1, h2, h3, h4, hw, hs, h7, ht1, hsen]

/-- Witness for `C2_router_order` at the concrete input `"help"`. -/
theorem C2_router_order_witness : detectCommands "help" = ⟨some "help", []⟩ :=
  (C2_router_order "help").1 (by decide)

/-- `C3` (counterexample): on `"What's the stock price of AAPL"` the router
does return intent `stock`, but the captured parameter is `"price"`, not
`"AAPL"`: the `i` flag makes `[A-Z]{1,5}` case-insensitive, so the greedy
group grabs the word `price` right after `stock` instead of the ticker. -/
theorem C3_counterexample :
    detectCommands "What's the stock price of AAPL" = ⟨some "stock", ["price"]⟩ ∧
    (detectCommands "What's the stock price of AAPL").params ≠ ["AAPL"] := by
  decide

/-- `C3` (amended): for the input string `"What's the stock price of AAPL"`,
the command router returns intent `stock` with parameter list exactly
`["price"]`. -/
theorem C3_stock_params :
    detectCommands "What's the stock price of AAPL" = ⟨some "stock", ["price"]⟩ := by
  decide

/-- `C4`: the joke pattern `(?:tell|say)(?:me)? a joke` omits the space
before the optional `me`, so `"tell me a joke about the weather"` matches no
pattern at all and the router falls through to the `none` sentinel — even
though the route's own help text advertises "Tell me a joke" (also shown
here to fall through) as a supported command. -/
theorem C4_joke_pattern_missed :
    detectCommands "tell me a joke about the weather" = ⟨none, []⟩ ∧
    detectCommands "Tell me a joke" = ⟨none, []⟩ ∧
    detectCommands "tell a joke" = ⟨some "joke", []⟩ := by
  decide

/-- `C5`: the command router is a total pure function of the input text: for
every input string it returns either one of the nine concrete intents with
its parameter list or the `none` sentinel with no parameters (totality and
absence of exceptions or effects are inherent in it being a Lean function). -/
theorem C5_router_total (t : String) :
    ((detectCommands t).command = none ∧ (detectCommands t).params = []) ∨
    (detectCommands t).command ∈
      [some "help", some "time", some "date", some "joke", some "weather",
       some "stock", some "news", some "translate", some "sentiment"] := by
  unfold detectCommands
  repeat' split
  all_goals simp

theorem finishChat_spec (raw model : String) (attempted : List String) (i : Fin 5) :
    (finishChat raw model attempted i).response ≠ "" ∧
    (finishChat raw model attempted i).status = 200 ∧
    (finishChat raw model attempted i).attempted = attempted ∧
    ((cleanResponse raw = "" ∨ (cleanResponse raw).length < 5) →
      (finishChat raw model attempted i).response = pickFallback i) := by
  have hclean : cleanResponse (pickFallback i) = pickFallback i := by
    revert i; decide
  have hne : pickFallback i ≠ "" := by revert i; decide
  have hlong : ¬ (pickFallback i).length < 5 := by revert i; decide
  by_cases hraw : raw = ""
  · subst hraw
    simp only [finishChat, beq_self_eq_true, if_true, hclean]
    have hcond : ((pickFallback i == "") || decide ((pickFallback i).length < 5)) = false := by
      simp [hne, hlong]
    rw [if_neg (by simp [hne, hlong])]
    exact ⟨hne, rfl, rfl, fun _ => rfl⟩
  · have hraw2 : (raw == "") = false := by simp [hraw]
    simp only [finishChat, hraw2, if_false, Bool.false_eq_true]
    by_cases hshort : cleanResponse raw = "" ∨ (cleanResponse raw).length < 5
    · rw [if_pos (by
        rcases hshort with h | h
        · simp [h]
        · simp [h])]
      exact ⟨hne, rfl, rfl, fun _ => rfl⟩
    · push_neg at hshort
      rw [if_neg (by simp [hshort.1, hshort.2])]
      refine ⟨hshort.1, rfl, rfl, fun hcontra => ?_⟩
      rcases hcontra with h | h
      · exact absurd h hshort.1
      · omega

/-- `C1`: in the generation path, a failed primary call (timeout, error or
non-success status, all modelled by `primary = none`) leads to exactly one
backup attempt; if the backup also fails, or the post-processed output is
empty or shorter than 5 characters, the reply is the uniformly drawn entry
`pickFallback i` of the fixed `fallbackResponses` pool; and every branch
returns a non-empty response with HTTP status 200, never propagating the
network error. -/
theorem C1_chat_fallback (primary backup : Option String) (i : Fin 5) :
    (generateChatReply primary backup i).response ≠ "" ∧
    (generateChatReply primary backup i).status = 200 ∧
    (primary = none → (generateChatReply primary backup i).attempted =
      [chatPrimaryModel, chatBackupModel]) ∧
    (primary ≠ none → (generateChatReply primary backup i).attempted =
      [chatPrimaryModel]) ∧
    (primary = none → backup = none →
      (generateChatReply primary backup i).response = pickFallback i) ∧
    (∀ raw, (primary = some raw ∨ (primary = none ∧ backup = some raw)) →
      (cleanResponse raw = "" ∨ (cleanResponse raw).length < 5) →
      (generateChatReply primary backup i).response = pickFallback i) ∧
    pickFallback i ∈ fallbackResponses := by
  have hmem : pickFallback i ∈ fallbackResponses := by revert i; decide
  have hne : pickFallback i ≠ "" := by revert i; decide
  rcases primary with _ | praw
  · rcases backup with _ | braw
    · refine ⟨hne, rfl, fun _ => rfl, fun hcontra => absurd rfl hcontra,
        fun _ _ => rfl, ?_, hmem⟩
      intro raw hraw _
      rcases hraw with h | ⟨-, h⟩ <;> simp at h
    · have hspec := finishChat_spec braw chatBackupModel
        [chatPrimaryModel, chatBackupModel] i
      refine ⟨hspec.1, hspec.2.1, fun _ => hspec.2.2.1,
        fun hcontra => absurd rfl hcontra, fun _ hcontra => by simp at hcontra,
        ?_, hmem⟩
      intro raw hraw hshort
      rcases hraw with h | ⟨-, h⟩
      · simp at h
      · rcases Option.some.injEq .. ▸ h with rfl
        exact hspec.2.2.2 hshort
  · have hspec := finishChat_spec praw chatPrimaryModel [chatPrimaryModel] i
    refine ⟨hspec.1, hspec.2.1, fun hcontra => by simp at hcontra,
      fun _ => hspec.2.2.1, fun hcontra => by simp at hcontra, ?_, hmem⟩
    intro raw hraw hshort
    rcases hraw with h | ⟨hcontra, -⟩
    · rcases Option.some.injEq .. ▸ h with rfl
      exact hspec.2.2.2 hshort
    · simp at hcontra

/-- Witness for `C1_chat_fallback`: a failed primary and failed backup at
draw index 0 yield the first pool sentence, both models having been tried. -/
theorem C1_chat_fallback_witness :
    (generateChatReply none none 0).response = pickFallback 0 ∧
    (generateChatReply none none 0).attempted = [chatPrimaryModel, chatBackupModel] ∧
    (generateChatReply none none 0).response ≠ "" := by
  have h := C1_chat_fallback none none 0
  exact ⟨h.2.2.2.2.1 rfl rfl, h.2.2.1 rfl, h.1⟩

/-- `C6` (counterexample): on a raw output containing both markers, the code
keeps the leaked `"Human:"` turn: `split("AI:")[1]` takes only the segment
after the first `"AI:"` (up to the next one), and the `"Human:"` truncation
is an `else if` that never runs once `"AI:"` is present. -/
theorem C6_counterexample :
    strIncludes "AI: hi Human: bye" "AI:" = true ∧
    strIncludes "AI: hi Human: bye" "Human:" = true ∧
    cleanResponse "AI: hi Human: bye" = "hi Human: bye" ∧
    strIncludes (cleanResponse "AI: hi Human: bye") "Human:" = true := by
  decide

/-- `C6` (amended): post-processing leaves marker-free output unchanged;
when the output contains `"AI:"` (first occurrence at position `a.length`),
the result is the text strictly between that marker and the next `"AI:"`
occurrence (or the end), trimmed — the `"Human:"` rule does not apply; and
only when `"AI:"` is absent is the output truncated before the first
`"Human:"` and trimmed. -/
theorem C6_clean_spec (s : String) :
    (strIncludes s "AI:" = false → strIncludes s "Human:" = false →
      cleanResponse s = s) ∧
    (∀ a b : List Char, s.toList = a ++ "AI:".toList ++ b →
      idxOfSub ("AI:".toList) s.toList = some a.length →
      cleanResponse s =
        jsTrimStr (String.mk
          (b.take ((idxOfSub ("AI:".toList) b).getD b.length)))) ∧
    (strIncludes s "AI:" = false →
      ∀ a b : List Char, s.toList = a ++ "Human:".toList ++ b →
      idxOfSub ("Human:".toList) s.toList = some a.length →
      cleanResponse s = jsTrimStr (String.mk a)) := by
  refine ⟨?_, ?_, ?_⟩
  · intro h1 h2
    simp only [strIncludes] at h1 h2
    have h1' : ¬ (containsList s.toList ("AI:".toList) = true) := by simpa using h1
    have h2' : ¬ (containsList s.toList ("Human:".toList) = true) := by simpa using h2
    rw [cleanResponse, if_neg h1', if_neg h2']
  · intro a b hs hidx
    have hcont : containsList s.toList ("AI:".toList) = true :=
      containsList_of_idx hidx
    rw [cleanResponse, if_pos hcont]
    rw [hs] at hidx
    have hcut := jsSplit_cut ("AI:".toList) (by decide) a b hidx
    rw [hs, hcut]
    have hhead := jsSplit_head ("AI:".toList) (by decide) b
    simp only [List.getD_cons_succ]
    rw [hhead]
  · intro h1 a b hs hidx
    simp only [strIncludes] at h1
    have h1' : ¬ (containsList s.toList ("AI:".toList) = true) := by simpa using h1
    have hcont : containsList s.toList ("Human:".toList) = true :=
      containsList_of_idx hidx
    rw [cleanResponse, if_neg h1', if_pos hcont]
    have hlong := jsSplit_long_of_contains ("Human:".toList) (by decide)
      s.toList hcont
    rw [if_pos hlong]
    have hhead := jsSplit_head ("Human:".toList) (by decide) s.toList
    rw [hhead, hidx]
    simp only [Option.getD_some]
    rw [hs, List.append_assoc, List.take_left]

/-- Witness for `C6_clean_spec`: a response echoing the assistant marker
twice keeps only the trimmed text between the two occurrences. -/
theorem C6_clean_spec_witness :
    cleanResponse "AI: hi AI: bye" =
      jsTrimStr (String.mk
        ((" hi AI: bye".toList).take
          ((idxOfSub ("AI:".toList) (" hi AI: bye".toList)).getD
            (" hi AI: bye".toList).length))) ∧
    cleanResponse "AI: hi AI: bye" = "hi" :=
  ⟨(C6_clean_spec "AI: hi AI: bye").2.1 [] (" hi AI: bye".toList)
      (by decide) (by decide),
   by decide⟩

/-- `C7`: for every language pair whose pair key is absent from
`INDIAN_LANGUAGE_MODELS`, the primary model is the generic
`Helsinki-NLP/opus-mt-<srcCode>-<tgtCode>` pattern, it is the first fetch of
the translation chain, and every later fetch is one of the backup models. -/
theorem C7_generic_model (sourceLang targetLang : String)
    (habsent : lookupStr INDIAN_LANGUAGE_MODELS
      (getLanguageCode sourceLang ++ "-" ++ getLanguageCode targetLang) = none) :
    translatePrimaryModel sourceLang targetLang =
      "Helsinki-NLP/opus-mt-" ++ getLanguageCode sourceLang ++ "-" ++
        getLanguageCode targetLang ∧
    (translateFetchPlan sourceLang targetLang).head? =
      some ⟨translatePrimaryModel sourceLang targetLang, some 6000⟩ ∧
    ∀ f ∈ (translateFetchPlan sourceLang targetLang).tail,
      f.model ∈ "ai4bharat/indictrans2-indic-en-1B" :: BACKUP_MODELS := by
  refine ⟨?_, ?_, ?_⟩
  · simp only [translatePrimaryModel, habsent]
    simp [String.append_assoc]
  · simp [translateFetchPlan]
  · intro f hf
    simp only [translateFetchPlan, List.tail_cons] at hf
    rcases List.mem_append.mp hf with h | h
    · split at h
      · simp only [List.mem_singleton] at h
        rw [h]
        exact List.mem_cons_self _ _
      · simp at h
    · rcases List.mem_map.mp h with ⟨m, hm, rfl⟩
      exact List.mem_cons_of_mem _ hm

/-- Witness for `C7_generic_model` at the pair english→spanish (whose key
`en-es` is not in the specialized table). -/
theorem C7_generic_model_witness :
    translatePrimaryModel "english" "spanish" = "Helsinki-NLP/opus-mt-en-es" := by
  have h := (C7_generic_model "english" "spanish" (by decide)).1
  have he : "Helsinki-NLP/opus-mt-" ++ getLanguageCode "english" ++ "-" ++
      getLanguageCode "spanish" = "Helsinki-NLP/opus-mt-en-es" := by decide
  rw [h, he]

/-- `C8` (counterexample): not every fetch of the fallback chains carries a
per-call timeout — the generation chain's backup fetch and the translation
chain's specialized and backup fetches attach no `AbortSignal`. -/
theorem C8_counterexample :
    ¬ (∀ f ∈ chatFetchPlan, f.timeoutMs.isSome = true) ∧
    ¬ (∀ f ∈ translateFetchPlan "english" "hindi", f.timeoutMs.isSome = true) := by
  decide

theorem scanBackups_cons_fail (m : String) (rest : List String)
    (oracle : String → FetchOutcome)
    (h : oracle m = .noResult ∨ ∃ msg, oracle m = .threw msg) :
    scanBackups (m :: rest) oracle =
      ((scanBackups rest oracle).1, m :: (scanBackups rest oracle).2) := by
  have hunfold : scanBackups (m :: rest) oracle =
      match oracle m with
      | .ok (some text) => (some (text, m), [m])
      | .ok none => (none, [m])
      | _ => ((scanBackups rest oracle).1, m :: (scanBackups rest oracle).2) := rfl
  rcases h with h | ⟨msg, h⟩ <;> rw [hunfold, h]

theorem scanBackups_cons_att (m : String) (rest : List String)
    (oracle : String → FetchOutcome) :
    ∃ l, (scanBackups (m :: rest) oracle).2 = m :: l := by
  have hunfold : scanBackups (m :: rest) oracle =
      match oracle m with
      | .ok (some text) => (some (text, m), [m])
      | .ok none => (none, [m])
      | _ => ((scanBackups rest oracle).1, m :: (scanBackups rest oracle).2) := rfl
  cases h : oracle m with
  | threw msg => exact ⟨(scanBackups rest oracle).2, by rw [hunfold, h]⟩
  | noResult => exact ⟨(scanBackups rest oracle).2, by rw [hunfold, h]⟩
  | ok t =>
    cases t with
    | none => exact ⟨[], by rw [hunfold, h]⟩
    | some text => exact ⟨[], by rw [hunfold, h]⟩

theorem tryIndic_some_att {b : Bool} {oracle : String → FetchOutcome}
    {text m : String}
    (h : (tryIndic b oracle).1 = some (text, m)) :
    (tryIndic b oracle).2 = [indicModel] := by
  cases b with
  | false => simp [tryIndic] at h
  | true =>
    cases ho : oracle indicModel with
    | threw msg => simp [tryIndic, ho] at h
    | noResult => simp [tryIndic, ho] at h
    | ok t =>
      cases t with
      | none => simp [tryIndic, ho] at h
      | some tx => simp [tryIndic, ho]

theorem translateBackupPhase_spec (sourceLang targetLang : String)
    (oracle : String → FetchOutcome) (b : Bool) (p : String) :
    (translateBackupPhase sourceLang targetLang oracle b p).status = 200 ∧
    (translateBackupPhase sourceLang targetLang oracle b p).attempted.head? =
      some p ∧
    1 < (translateBackupPhase sourceLang targetLang oracle b p).attempted.length := by
  obtain ⟨l, hl⟩ : ∃ l, (scanBackups BACKUP_MODELS oracle).2 =
      "facebook/mbart-large-50-many-to-many-mmt" :: l :=
    scanBackups_cons_att "facebook/mbart-large-50-many-to-many-mmt"
      ["facebook/nllb-200-distilled-600M", "ai4bharat/indictrans2-indic-en-1B"]
      oracle
  unfold translateBackupPhase
  rcases hind : tryIndic b oracle with ⟨r, att⟩
  rcases r with _ | ⟨text, m⟩
  · rcases hsb : scanBackups BACKUP_MODELS oracle with ⟨r2, att2⟩
    rw [hsb] at hl
    simp only at hl
    rcases r2 with _ | ⟨text2, m2⟩
    · refine ⟨rfl, rfl, ?_⟩
      simp [hl]
    · refine ⟨rfl, rfl, ?_⟩
      simp [hl]
  · have hatt : (tryIndic b oracle).2 = [indicModel] :=
      tryIndic_some_att (by rw [hind])
    rw [hind] at hatt
    simp only at hatt
    refine ⟨rfl, rfl, ?_⟩
    simp [hatt]

/-- `C8` (amended): only the first (primary) attempt of each chain is
bounded by a per-call timeout — 5000 ms for generation, 6000 ms for
translation — and later attempts carry none.  In the generation chain a
failed or timed-out primary is caught and the single backup model is
fetched.  In the translation chain the fall-through is narrower: a
specialized or backup attempt that throws or returns an unusable response is
absorbed and the next candidate is tried immediately, and a primary call
that returns without a usable translation falls through to those candidates
(still answering 200) — but a thrown or timed-out primary translate fetch is
rethrown and the route answers 500 with no other model attempted. -/
theorem C8_timeout_amended :
    chatFetchPlan.head?.map FetchSpec.timeoutMs = some (some 5000) ∧
    (∀ f ∈ chatFetchPlan.tail, f.timeoutMs = none) ∧
    (∀ sourceLang targetLang : String,
      (translateFetchPlan sourceLang targetLang).head?.map FetchSpec.timeoutMs =
        some (some 6000) ∧
      ∀ f ∈ (translateFetchPlan sourceLang targetLang).tail, f.timeoutMs = none) ∧
    (∀ (primary backup : Option String) (i : Fin 5), primary = none →
      (generateChatReply primary backup i).attempted =
        [chatPrimaryModel, chatBackupModel]) ∧
    (∀ (m : String) (rest : List String) (oracle : String → FetchOutcome),
      oracle m = .noResult ∨ (∃ msg, oracle m = .threw msg) →
      scanBackups (m :: rest) oracle =
        ((scanBackups rest oracle).1, m :: (scanBackups rest oracle).2)) ∧
    (∀ (sourceLang targetLang : String) (oracle : String → FetchOutcome)
        (msg : String),
      oracle (translatePrimaryModel sourceLang targetLang) = .threw msg →
      (runTranslateRoute sourceLang targetLang oracle).status = 500 ∧
      (runTranslateRoute sourceLang targetLang oracle).attempted =
        [translatePrimaryModel sourceLang targetLang]) ∧
    (∀ (sourceLang targetLang : String) (oracle : String → FetchOutcome),
      oracle (translatePrimaryModel sourceLang targetLang) = .noResult ∨
        oracle (translatePrimaryModel sourceLang targetLang) = .ok none →
      (runTranslateRoute sourceLang targetLang oracle).status = 200 ∧
      (runTranslateRoute sourceLang targetLang oracle).attempted.head? =
        some (translatePrimaryModel sourceLang targetLang) ∧
      1 < (runTranslateRoute sourceLang targetLang oracle).attempted.length) := by
  refine ⟨rfl, by decide, ?_, ?_, ?_, ?_, ?_⟩
  · intro sourceLang targetLang
    constructor
    · simp [translateFetchPlan]
    · intro f hf
      simp only [translateFetchPlan, List.tail_cons] at hf
      rcases List.mem_append.mp hf with h | h
      · split at h
        · simp only [List.mem_singleton] at h
          rw [h]
        · simp at h
      · rcases List.mem_map.mp h with ⟨m, hm, rfl⟩
        rfl
  · intro primary backup i hp
    subst hp
    rcases backup with _ | raw
    · rfl
    · exact (finishChat_spec raw chatBackupModel
        [chatPrimaryModel, chatBackupModel] i).2.2.1
  · intro m rest oracle h
    exact scanBackups_cons_fail m rest oracle h
  · intro sourceLang targetLang oracle msg h
    simp only [runTranslateRoute]
    rw [h]
    exact ⟨rfl, rfl⟩
  · intro sourceLang targetLang oracle h
    have hspec := translateBackupPhase_spec sourceLang targetLang oracle
      (isIndianLanguage (getLanguageCode sourceLang)
        || isIndianLanguage (getLanguageCode targetLang))
      (translatePrimaryModel sourceLang targetLang)
    rcases h with h | h <;>
      (simp only [runTranslateRoute]; rw [h]; exact hspec)

/-- Witness for `C8_timeout_amended`: a timed-out primary translate fetch
yields a 500 with only the primary attempted; an unusable primary response
falls through to the backups; a failed backup candidate passes to the next;
a failed primary generation call leads to both generation models. -/
theorem C8_timeout_amended_witness :
    (runTranslateRoute "english" "spanish"
      (fun _ => FetchOutcome.threw "The operation was aborted due to timeout")).status = 500 ∧
    (runTranslateRoute "english" "spanish"
      (fun _ => FetchOutcome.threw "The operation was aborted due to timeout")).attempted =
      [translatePrimaryModel "english" "spanish"] ∧
    (runTranslateRoute "english" "spanish"
      (fun _ => FetchOutcome.noResult)).status = 200 ∧
    1 < (runTranslateRoute "english" "spanish"
      (fun _ => FetchOutcome.noResult)).attempted.length ∧
    (scanBackups ["a", "b"] (fun _ => FetchOutcome.noResult)).2 =
      "a" :: (scanBackups ["b"] (fun _ => FetchOutcome.noResult)).2 ∧
    (generateChatReply none none 0).attempted = [chatPrimaryModel, chatBackupModel] := by
  have h := C8_timeout_amended
  have hthrew := h.2.2.2.2.2.1 "english" "spanish"
    (fun _ => FetchOutcome.threw "The operation was aborted due to timeout")
    "The operation was aborted due to timeout" rfl
  have hsoft := h.2.2.2.2.2.2 "english" "spanish"
    (fun _ => FetchOutcome.noResult) (Or.inl rfl)
  have hstep := h.2.2.2.2.1 "a" ["b"] (fun _ => FetchOutcome.noResult)
    (Or.inl rfl)
  exact ⟨hthrew.1, hthrew.2, hsoft.1, hsoft.2.2,
    congrArg Prod.snd hstep, h.2.2.2.1 none none 0 rfl⟩

/-- `C9`: an input whose normalized (lowercased, trimmed) text is exactly a
`BUILT_IN_RESPONSES` key is answered with that key's stored response, and the
interaction never reaches the remote chat API — for the voice path and
(under its own lowercased lookup) the typed-submit path alike. -/
theorem C9_builtin_short_circuit (now : DateNow) (g : Fin 4)
    (input resp : String)
    (h : lookupStr (BUILT_IN_RESPONSES now) (normalizeInput input) = some resp) :
    processVoiceInput now g input = .builtIn resp ∧
    (∀ t2, processVoiceInput now g input ≠ .sendToAPI t2) ∧
    (jsTrimStr input ≠ "" →
      lookupStr (BUILT_IN_RESPONSES now) (normalizeInput (lowerStr input)) = some resp →
      handleSubmitAction now g input = some (.builtIn resp)) := by
  have hfind : findBestMatch now input = some resp := by
    simp only [findBestMatch]
    rw [h]
  refine ⟨?_, ?_, ?_⟩
  · simp only [processVoiceInput]
    rw [hfind]
  · intro t2
    simp only [processVoiceInput]
    rw [hfind]
    simp
  · intro hblank h2
    have hfind2 : findBestMatch now (lowerStr input) = some resp := by
      simp only [findBestMatch]
      rw [h2]
    simp only [handleSubmitAction]
    rw [if_neg (by simp [hblank]), hfind2]

/-- Witness for `C9_builtin_short_circuit` at the greeting `"Hello"`. -/
theorem C9_builtin_short_circuit_witness :
    processVoiceInput ⟨"", "", ""⟩ 0 "Hello" =
      .builtIn "Hello! How can I assist you today?" ∧
    handleSubmitAction ⟨"", "", ""⟩ 0 "Hello" =
      some (.builtIn "Hello! How can I assist you today?") := by
  have h := C9_builtin_short_circuit ⟨"", "", ""⟩ 0 "Hello"
    "Hello! How can I assist you today?" (by decide)
  exact ⟨h.1, h.2.2 (by decide) (by decide)⟩

/-- `C10` (counterexample): `"hi hello"` contains the key `"hi"`, yet
`findBestMatch` answers with the response of `"hello"` — the first key in
table order whose containment test succeeds — not with `"hi"`'s response. -/
theorem C10_counterexample :
    containsList (normalizeInput "hi hello").toList ("hi".toList) = true ∧
    ("hi", "Hi there! How can I help you?") ∈ BUILT_IN_RESPONSES ⟨"", "", ""⟩ ∧
    findBestMatch ⟨"", "", ""⟩ "hi hello" =
      some "Hello! How can I assist you today?" ∧
    findBestMatch ⟨"", "", ""⟩ "hi hello" ≠
      some "Hi there! How can I help you?" := by
  decide

/-- `C10` (amended): when the normalized input is not an exact key but some
key passes the containment test (key contained in the input, or input
contained in the key), `findBestMatch` returns the response of the first
such key in table order, the input is answered locally, and it is never
forwarded to the remote chat endpoint. -/
theorem C10_partial_match (now : DateNow) (g : Fin 4) (input : String)
    (kv : String × String)
    (hexact : lookupStr (BUILT_IN_RESPONSES now) (normalizeInput input) = none)
    (hfind : (BUILT_IN_RESPONSES now).find? (fun p =>
        containsList (normalizeInput input).toList p.1.toList
          || containsList p.1.toList (normalizeInput input).toList) = some kv) :
    findBestMatch now input = some kv.2 ∧
    processVoiceInput now g input = .builtIn kv.2 ∧
    ∀ t2, processVoiceInput now g input ≠ .sendToAPI t2 := by
  have hfm : findBestMatch now input = some kv.2 := by
    simp only [findBestMatch]
    rw [hexact, hfind]
  refine ⟨hfm, ?_, ?_⟩
  · simp only [processVoiceInput]
    rw [hfm]
  · intro t2
    simp only [processVoiceInput]
    rw [hfm]
    simp

/-- Witness for `C10_partial_match` at input `"hi hello"`, matched by the
first table entry `("hello", …)`. -/
theorem C10_partial_match_witness :
    findBestMatch ⟨"", "", ""⟩ "hi hello" =
      some "Hello! How can I assist you today?" ∧
    processVoiceInput ⟨"", "", ""⟩ 0 "hi hello" =
      .builtIn "Hello! How can I assist you today?" := by
  have h := C10_partial_match ⟨"", "", ""⟩ 0 "hi hello"
    ("hello", "Hello! How can I assist you today?") (by decide) (by decide)
  exact ⟨h.1, h.2.1⟩
